import Mathlib

/-!
Verification of the PolicyPulse legislative data model.

The repository's storage layer is the PostgreSQL schema in `db/init_db.sh`
(tables, enumerated types, CHECK and UNIQUE constraints, and the
full-text-search trigger).  The write-side operations the specification
describes (`createAnalysis`, the ingestion upsert, priority scoring) are
contracts for collaborators whose code is not part of the repository; those
operations are modelled here from the specification, while every table shape,
enumerated type, constraint and trigger is embedded from `db/init_db.sh`.
Timestamps are modelled as natural numbers, JSONB payloads as lists of
strings, and PostgreSQL FLOAT columns as rationals (only order comparisons
matter to the constraints).
-/

set_option maxHeartbeats 1000000

namespace PolicyPulse

/-- `data_source_enum` from init_db.sh. -/
inductive DataSourceEnum
  | legiscan
  | congress_gov
  | other
deriving DecidableEq

/-- `govt_type_enum` from init_db.sh. -/
inductive GovtTypeEnum
  | federal
  | state
  | county
  | city
deriving DecidableEq

/-- `bill_status_enum` from init_db.sh. -/
inductive BillStatusEnum
  | new
  | introduced
  | updated
  | passed
  | defeated
  | vetoed
  | enacted
  | pending
deriving DecidableEq

/-- `impact_level_enum` from init_db.sh. -/
inductive ImpactLevelEnum
  | low
  | moderate
  | high
  | critical
deriving DecidableEq

/-- `impact_category_enum` from init_db.sh. -/
inductive ImpactCategoryEnum
  | public_health
  | local_gov
  | economic
  | environmental
  | education
  | infrastructure
  | healthcare
  | social_services
  | justice
deriving DecidableEq

/-! ## Analysis versioning (table `legislation_analysis`)

Columns kept from init_db.sh: `id`, `legislation_id`, `analysis_version`,
`previous_version_id`, `summary`, `key_points` (stand-in for the structured
impact payload columns), `confidence_score`.  The only CHECK constraint the
schema declares on this table is `analysis_version > 0`; the UNIQUE
constraint is `unique_analysis_version UNIQUE (legislation_id,
analysis_version)`. -/

structure AnalysisRow where
  id : Nat
  legislation_id : Nat
  analysis_version : Nat
  previous_version_id : Option Nat
  summary : Option String
  key_points : List String
  confidence_score : Option Rat
deriving DecidableEq

/-- The CHECK constraint init_db.sh declares on `legislation_analysis`:
`analysis_version INTEGER NOT NULL DEFAULT 1 CHECK (analysis_version > 0)`.
No CHECK constrains `confidence_score` on this table. -/
def analysisRowChecks (r : AnalysisRow) : Prop :=
  0 < r.analysis_version

instance (r : AnalysisRow) : Decidable (analysisRowChecks r) := by
  unfold analysisRowChecks; infer_instance

/-- The UNIQUE constraint `unique_analysis_version` on
`(legislation_id, analysis_version)`: two rows agreeing on the pair are the
same row. -/
def pairUnique (rows : List AnalysisRow) : Prop :=
  ∀ r ∈ rows, ∀ s ∈ rows,
    r.legislation_id = s.legislation_id → r.analysis_version = s.analysis_version → r = s

/-- Largest `analysis_version` among the rows of a given bill (0 if none),
the `max(analysis_version for legislation_id)` read of spec section 4.2. -/
def maxVersion (rows : List AnalysisRow) (lid : Nat) : Nat :=
  rows.foldr (fun r m => if r.legislation_id = lid then max r.analysis_version m else m) 0

/-- Lookup of the row holding a given `(legislation_id, analysis_version)`
pair, the lookup behind both `previous_version_id` resolution and the
`unique_analysis_version` conflict test. -/
def findByVersion (rows : List AnalysisRow) (lid v : Nat) : Option AnalysisRow :=
  rows.find? (fun r => r.legislation_id == lid && r.analysis_version == v)

/-- Errors of spec section 4.2: `ValidationError` (unknown legislation id or
payload with no content) and `ConcurrencyError` (unique-constraint conflict
on version allocation). -/
inductive CreateError
  | validationError
  | concurrencyError
deriving DecidableEq

/-- Modelled from the spec: the `createAnalysis` payload, which "must include
at least a summary or structured impact fields".  `key_points` stands in for
the structured impact columns. -/
structure AnalysisPayload where
  summary : Option String
  key_points : List String
  confidence_score : Option Rat
deriving DecidableEq

/-- Modelled from the spec: the payload-content validation of section 4.2. -/
def AnalysisPayload.hasContent (p : AnalysisPayload) : Bool :=
  p.summary.isSome || !p.key_points.isEmpty

/-- State of the `legislation_analysis` table: its rows, the SERIAL id
sequence, and the set of ids of existing `legislation` rows (the foreign-key
target). -/
structure AnalysisDB where
  legislationIds : List Nat
  rows : List AnalysisRow
  nextId : Nat
deriving DecidableEq

/-- Modelled from the spec: `createAnalysis(legislationId, payload)` of
section 4.2, whose implementation is not part of the repository.  It
validates the legislation id and the payload, reads
`next_version = max(analysis_version) + 1` (1 if none exist), resolves
`previous_version_id` to the row with `analysis_version = next_version - 1`
(none for version 1), and inserts guarded by the schema's
`unique_analysis_version` constraint, surfacing a conflict as
`ConcurrencyError`. -/
def createAnalysis (db : AnalysisDB) (lid : Nat) (p : AnalysisPayload) :
    Except CreateError (AnalysisDB × AnalysisRow) :=
  if db.legislationIds.contains lid && p.hasContent then
    let next := maxVersion db.rows lid + 1
    let row : AnalysisRow :=
      { id := db.nextId
        legislation_id := lid
        analysis_version := next
        previous_version_id := (findByVersion db.rows lid (next - 1)).map (fun r => r.id)
        summary := p.summary
        key_points := p.key_points
        confidence_score := p.confidence_score }
    if (findByVersion db.rows lid next).isSome then
      Except.error CreateError.concurrencyError
    else
      Except.ok ({ db with rows := row :: db.rows, nextId := db.nextId + 1 }, row)
  else
    Except.error CreateError.validationError

/-- `createAnalysis` iterated n times sequentially with the same payload. -/
def createAnalysisN (db : AnalysisDB) (lid : Nat) (p : AnalysisPayload) : Nat → Except CreateError AnalysisDB
  | 0 => Except.ok db
  | n + 1 =>
    match createAnalysisN db lid p n with
    | Except.ok db' =>
      match createAnalysis db' lid p with
      | Except.ok (db'', _) => Except.ok db''
      | Except.error e => Except.error e
    | Except.error e => Except.error e

/-! ### Basic lemmas about `maxVersion` and `findByVersion` -/

theorem maxVersion_cons (a : AnalysisRow) (rows : List AnalysisRow) (lid : Nat) :
    maxVersion (a :: rows) lid =
      if a.legislation_id = lid then max a.analysis_version (maxVersion rows lid)
      else maxVersion rows lid := rfl

theorem findByVersion_cons (a : AnalysisRow) (rows : List AnalysisRow) (lid v : Nat) :
    findByVersion (a :: rows) lid v =
      if a.legislation_id = lid ∧ a.analysis_version = v then some a
      else findByVersion rows lid v := by
  by_cases h : a.legislation_id = lid ∧ a.analysis_version = v
  · rw [if_pos h]
    unfold findByVersion
    rw [List.find?_cons_of_pos]
    simp [h.1, h.2]
  · rw [if_neg h]
    unfold findByVersion
    rw [List.find?_cons_of_neg]
    simp only [Bool.and_eq_true, beq_iff_eq]
    exact fun hc => h hc

theorem version_le_maxVersion {rows : List AnalysisRow} {lid : Nat} {r : AnalysisRow}
    (hr : r ∈ rows) (hl : r.legislation_id = lid) :
    r.analysis_version ≤ maxVersion rows lid := by
  induction rows with
  | nil => cases hr
  | cons a rows ih =>
    rw [maxVersion_cons]
    rcases List.mem_cons.mp hr with rfl | hr
    · rw [if_pos hl]
      exact Nat.le_max_left _ _
    · have h := ih hr
      by_cases ha : a.legislation_id = lid
      · rw [if_pos ha]
        exact le_trans h (Nat.le_max_right _ _)
      · rw [if_neg ha]
        exact h

theorem findByVersion_mem {rows : List AnalysisRow} {lid v : Nat} {r : AnalysisRow}
    (h : findByVersion rows lid v = some r) :
    r ∈ rows ∧ r.legislation_id = lid ∧ r.analysis_version = v := by
  have hm := List.mem_of_find?_eq_some h
  have hp := List.find?_some h
  simp only [Bool.and_eq_true, beq_iff_eq] at hp
  exact ⟨hm, hp.1, hp.2⟩

theorem findByVersion_eq_none_of_lt {rows : List AnalysisRow} {lid v : Nat}
    (h : maxVersion rows lid < v) : findByVersion rows lid v = none := by
  cases hf : findByVersion rows lid v with
  | none => rfl
  | some r =>
    obtain ⟨hm, hl, hv⟩ := findByVersion_mem hf
    have := version_le_maxVersion hm hl
    omega

theorem maxVersion_append (xs ys : List AnalysisRow) (lid : Nat) :
    maxVersion (xs ++ ys) lid = max (maxVersion xs lid) (maxVersion ys lid) := by
  induction xs with
  | nil => simp [maxVersion]
  | cons a xs ih =>
    rw [List.cons_append, maxVersion_cons, maxVersion_cons, ih]
    by_cases h : a.legislation_id = lid
    · rw [if_pos h, if_pos h, Nat.max_assoc]
    · rw [if_neg h, if_neg h]

theorem maxVersion_eq_zero {rows : List AnalysisRow} {lid : Nat}
    (h : ∀ r ∈ rows, r.legislation_id ≠ lid) : maxVersion rows lid = 0 := by
  induction rows with
  | nil => rfl
  | cons a rows ih =>
    rw [maxVersion_cons, if_neg (h a (List.mem_cons_self a rows))]
    exact ih fun r hr => h r (List.mem_cons_of_mem a hr)

theorem findByVersion_append (xs ys : List AnalysisRow) (lid v : Nat) :
    findByVersion (xs ++ ys) lid v = (findByVersion xs lid v).or (findByVersion ys lid v) :=
  List.find?_append

theorem findByVersion_eq_none_of_no_lid {rows : List AnalysisRow} {lid v : Nat}
    (h : ∀ r ∈ rows, r.legislation_id ≠ lid) : findByVersion rows lid v = none := by
  cases hf : findByVersion rows lid v with
  | none => rfl
  | some r =>
    obtain ⟨hm, hl, _⟩ := findByVersion_mem hf
    exact absurd hl (h r hm)

/-! ### Explicit description of sequential `createAnalysis` runs -/

/-- The i-th row (0-based) produced by a sequential run of `createAnalysis`
that starts from a database holding no analysis rows for the bill and whose
id sequence starts at `base`. -/
def mkRow (base lid : Nat) (p : AnalysisPayload) (i : Nat) : AnalysisRow :=
  { id := base + i
    legislation_id := lid
    analysis_version := i + 1
    previous_version_id := if i = 0 then none else some (base + (i - 1))
    summary := p.summary
    key_points := p.key_points
    confidence_score := p.confidence_score }

/-- The analysis rows present after n sequential `createAnalysis` calls,
newest first (inserts prepend). -/
def newRows (base lid : Nat) (p : AnalysisPayload) : Nat → List AnalysisRow
  | 0 => []
  | n + 1 => mkRow base lid p n :: newRows base lid p n

theorem mem_newRows {base lid : Nat} {p : AnalysisPayload} {n : Nat} {r : AnalysisRow} :
    r ∈ newRows base lid p n ↔ ∃ i, i < n ∧ r = mkRow base lid p i := by
  induction n with
  | zero => simp [newRows]
  | succ n ih =>
    simp only [newRows, List.mem_cons, ih]
    constructor
    · rintro (rfl | ⟨i, hi, rfl⟩)
      · exact ⟨n, Nat.lt_succ_self n, rfl⟩
      · exact ⟨i, Nat.lt_succ_of_lt hi, rfl⟩
    · rintro ⟨i, hi, rfl⟩
      rcases Nat.lt_succ_iff_lt_or_eq.mp hi with hi | rfl
      · exact Or.inr ⟨i, hi, rfl⟩
      · exact Or.inl rfl

theorem maxVersion_newRows (base lid : Nat) (p : AnalysisPayload) (n : Nat) :
    maxVersion (newRows base lid p n) lid = n := by
  induction n with
  | zero => rfl
  | succ n ih =>
    rw [newRows, maxVersion_cons,
      if_pos (show (mkRow base lid p n).legislation_id = lid from rfl), ih]
    show max (n + 1) n = n + 1
    omega

theorem findByVersion_newRows_self (base lid : Nat) (p : AnalysisPayload) {n i : Nat}
    (hi : i < n) :
    findByVersion (newRows base lid p n) lid (i + 1) = some (mkRow base lid p i) := by
  induction n with
  | zero => omega
  | succ n ih =>
    rw [newRows, findByVersion_cons]
    by_cases h : i = n
    · subst h
      rw [if_pos ⟨rfl, rfl⟩]
    · have : ¬((mkRow base lid p n).legislation_id = lid ∧
          (mkRow base lid p n).analysis_version = i + 1) := by
        rintro ⟨-, hv⟩
        exact h (by simpa [mkRow] using hv.symm)
      rw [if_neg this]
      exact ih (by omega)

theorem findByVersion_newRows_zero (base lid : Nat) (p : AnalysisPayload) (n : Nat) :
    findByVersion (newRows base lid p n) lid 0 = none := by
  induction n with
  | zero => rfl
  | succ n ih =>
    rw [newRows, findByVersion_cons, if_neg, ih]
    rintro ⟨-, hv⟩
    simp [mkRow] at hv

/-- Characterization of a sequential run of `createAnalysis`: starting from a
database containing no analysis rows for the bill, n calls succeed and leave
exactly the rows `newRows`. -/
theorem createAnalysisN_eq (db : AnalysisDB) (lid : Nat) (p : AnalysisPayload)
    (hlid : db.legislationIds.contains lid = true) (hp : p.hasContent = true)
    (hno : ∀ r ∈ db.rows, r.legislation_id ≠ lid) (n : Nat) :
    createAnalysisN db lid p n =
      Except.ok { legislationIds := db.legislationIds
                  rows := newRows db.nextId lid p n ++ db.rows
                  nextId := db.nextId + n } := by
  induction n with
  | zero =>
    show Except.ok db = _
    cases db
    simp [newRows]
  | succ n ih =>
    show (match createAnalysisN db lid p n with
      | Except.ok db' =>
        match createAnalysis db' lid p with
        | Except.ok (db'', _) => Except.ok db''
        | Except.error e => Except.error e
      | Except.error e => Except.error e) = _
    rw [ih]
    show (match createAnalysis _ lid p with
      | Except.ok (db'', _) => Except.ok db''
      | Except.error e => Except.error e) = _
    have hmax : maxVersion (newRows db.nextId lid p n ++ db.rows) lid = n := by
      rw [maxVersion_append, maxVersion_newRows, maxVersion_eq_zero hno]
      omega
    have hconf : findByVersion (newRows db.nextId lid p n ++ db.rows) lid (n + 1) = none :=
      findByVersion_eq_none_of_lt (by omega)
    have hprev : findByVersion (newRows db.nextId lid p n ++ db.rows) lid n =
        if n = 0 then none else some (mkRow db.nextId lid p (n - 1)) := by
      by_cases hn : n = 0
      · subst hn
        rw [if_pos rfl, findByVersion_append, findByVersion_newRows_zero,
          findByVersion_eq_none_of_no_lid hno]
        rfl
      · rw [if_neg hn, findByVersion_append]
        obtain ⟨m, rfl⟩ := Nat.exists_eq_succ_of_ne_zero hn
        rw [findByVersion_newRows_self db.nextId lid p (Nat.lt_succ_self m)]
        rfl
    rw [createAnalysis]
    simp only [hlid, hp, Bool.and_self, if_true, hmax, Nat.add_sub_cancel, hprev, hconf,
      Option.isSome_none, Bool.false_eq_true, if_false]
    show Except.ok _ = _
    congr 1
    refine AnalysisDB.mk.injEq _ _ _ _ _ _ ▸ ?_
    refine ⟨rfl, ?_, by omega⟩
    show (⟨db.nextId + n, lid, n + 1,
      (if n = 0 then none else some (mkRow db.nextId lid p (n - 1))).map (fun r => r.id),
      p.summary, p.key_points, p.confidence_score⟩ : AnalysisRow) ::
        (newRows db.nextId lid p n ++ db.rows) = newRows db.nextId lid p (n + 1) ++ db.rows
    rw [newRows, List.cons_append]
    congr 1
    show AnalysisRow.mk _ _ _ _ _ _ _ = mkRow db.nextId lid p n
    unfold mkRow
    by_cases hn : n = 0
    · subst hn
      rfl
    · rw [if_neg hn, if_neg hn]
      rfl

/-- Example state for exercising the analysis-versioning theorems: one
legislation row (id 1) and no analysis rows yet. -/
def exampleAnalysisDB : AnalysisDB :=
  { legislationIds := [1], rows := [], nextId := 0 }

/-- Example `createAnalysis` payload carrying a summary. -/
def examplePayload : AnalysisPayload :=
  { summary := some "raises the state tobacco age"
    key_points := ["public health"]
    confidence_score := some (9 / 10) }

/-- C1: for every bill, calling createAnalysis N times sequentially yields
rows whose analysis_version values are exactly 1..N with no gaps, the pair
(legislation_id, analysis_version) is unique across all analysis rows, and
each row with analysis_version v > 1 has previous_version_id equal to the id
of that bill's row with analysis_version v - 1 (null for version 1). -/
theorem claim_C1_version_monotonicity (db : AnalysisDB) (lid : Nat) (p : AnalysisPayload)
    (N : Nat) (hlid : db.legislationIds.contains lid = true) (hp : p.hasContent = true)
    (hno : ∀ r ∈ db.rows, r.legislation_id ≠ lid) (hu : pairUnique db.rows) :
    ∃ db', createAnalysisN db lid p N = Except.ok db' ∧
      (∀ v, (∃ r ∈ db'.rows, r.legislation_id = lid ∧ r.analysis_version = v) ↔
        (1 ≤ v ∧ v ≤ N)) ∧
      pairUnique db'.rows ∧
      (∀ r ∈ db'.rows, r.legislation_id = lid →
        (r.analysis_version = 1 → r.previous_version_id = none) ∧
        (∀ v, r.analysis_version = v + 2 →
          ∃ s ∈ db'.rows, s.legislation_id = lid ∧ s.analysis_version = v + 1 ∧
            r.previous_version_id = some s.id)) := by
  refine ⟨_, createAnalysisN_eq db lid p hlid hp hno N, ?_, ?_, ?_⟩
  · intro v
    constructor
    · rintro ⟨r, hr, hl, rfl⟩
      rcases List.mem_append.mp hr with hr | hr
      · obtain ⟨i, hi, rfl⟩ := mem_newRows.mp hr
        show 1 ≤ i + 1 ∧ i + 1 ≤ N
        omega
      · exact absurd hl (hno r hr)
    · rintro ⟨hv1, hvN⟩
      refine ⟨mkRow db.nextId lid p (v - 1), ?_, rfl, ?_⟩
      · exact List.mem_append.mpr (Or.inl (mem_newRows.mpr ⟨v - 1, by omega, rfl⟩))
      · show v - 1 + 1 = v
        omega
  · intro r hr s hs hls hvs
    rcases List.mem_append.mp hr with hr | hr <;> rcases List.mem_append.mp hs with hs | hs
    · obtain ⟨i, hi, rfl⟩ := mem_newRows.mp hr
      obtain ⟨j, hj, rfl⟩ := mem_newRows.mp hs
      have : i + 1 = j + 1 := hvs
      have : i = j := by omega
      subst this
      rfl
    · obtain ⟨i, hi, rfl⟩ := mem_newRows.mp hr
      exact absurd (show s.legislation_id = lid from hls.symm) (hno s hs)
    · obtain ⟨j, hj, rfl⟩ := mem_newRows.mp hs
      exact absurd (show r.legislation_id = lid from hls) (hno r hr)
    · exact hu r hr s hs hls hvs
  · intro r hr hl
    rcases List.mem_append.mp hr with hr | hr
    · obtain ⟨i, hi, rfl⟩ := mem_newRows.mp hr
      constructor
      · intro h1
        have : i = 0 := by
          have : i + 1 = 1 := h1
          omega
        subst this
        rfl
      · intro v hv
        have hiv : i = v + 1 := by
          have : i + 1 = v + 2 := hv
          omega
        subst hiv
        refine ⟨mkRow db.nextId lid p v, ?_, rfl, rfl, ?_⟩
        · exact List.mem_append.mpr (Or.inl (mem_newRows.mpr ⟨v, by omega, rfl⟩))
        · show (if v + 1 = 0 then none else some (db.nextId + (v + 1 - 1))) =
            some (db.nextId + v)
          rw [if_neg (Nat.succ_ne_zero v)]
          congr 1
    · exact absurd hl (hno r hr)

/-- Witness for C1: three sequential createAnalysis calls on a fresh bill
satisfy its hypotheses and conclusion. -/
theorem claim_C1_version_monotonicity_witness :
    (exampleAnalysisDB.legislationIds.contains 1 = true) ∧
      (examplePayload.hasContent = true) ∧
      (∀ r ∈ exampleAnalysisDB.rows, r.legislation_id ≠ 1) ∧
      pairUnique exampleAnalysisDB.rows ∧
      (∃ db', createAnalysisN exampleAnalysisDB 1 examplePayload 3 = Except.ok db' ∧
        (∀ v, (∃ r ∈ db'.rows, r.legislation_id = 1 ∧ r.analysis_version = v) ↔
          (1 ≤ v ∧ v ≤ 3)) ∧
        pairUnique db'.rows ∧
        (∀ r ∈ db'.rows, r.legislation_id = 1 →
          (r.analysis_version = 1 → r.previous_version_id = none) ∧
          (∀ v, r.analysis_version = v + 2 →
            ∃ s ∈ db'.rows, s.legislation_id = 1 ∧ s.analysis_version = v + 1 ∧
              r.previous_version_id = some s.id))) :=
  ⟨by decide, by decide, by simp [exampleAnalysisDB], by simp [pairUnique, exampleAnalysisDB],
    claim_C1_version_monotonicity exampleAnalysisDB 1 examplePayload 3 (by decide) (by decide)
      (by simp [exampleAnalysisDB]) (by simp [pairUnique, exampleAnalysisDB])⟩

/-! ### Concurrent version allocation

Spec section 5 describes analysis version allocation as a read-then-write
sequence (`max(version) + 1`) serialized by the `unique_analysis_version`
constraint with conflict surfacing.  Two concurrent `createAnalysis` calls
for the same bill are modelled as two transactions, each consisting of an
atomic read step and an atomic guarded-insert step, interleaved by an
arbitrary schedule. -/

/-- Local state of one in-flight `createAnalysis` transaction: the version
maximum it has read (none before its read step) and its outcome (none while
still running). -/
structure TxnState where
  readMax : Option Nat
  result : Option (Except CreateError Nat)

def TxnState.initial : TxnState := { readMax := none, result := none }

/-- The row inserted by a version-allocating transaction that read maximum m. -/
def insertedRow (db : AnalysisDB) (lid : Nat) (p : AnalysisPayload) (m : Nat) : AnalysisRow :=
  { id := db.nextId
    legislation_id := lid
    analysis_version := m + 1
    previous_version_id := (findByVersion db.rows lid m).map (fun r => r.id)
    summary := p.summary
    key_points := p.key_points
    confidence_score := p.confidence_score }

/-- Modelled from the spec: one atomic step of the read-max-then-insert
sequence of section 4.2 for a validated request.  The first step reads
`max(analysis_version)`; the second attempts to insert version read+1, which
the `unique_analysis_version` constraint rejects as a `ConcurrencyError`
when that pair already exists. -/
def txnStep (lid : Nat) (p : AnalysisPayload) (db : AnalysisDB) (t : TxnState) :
    AnalysisDB × TxnState :=
  match t.readMax, t.result with
  | none, _ => (db, { t with readMax := some (maxVersion db.rows lid) })
  | some m, none =>
    if (findByVersion db.rows lid (m + 1)).isSome then
      (db, { t with result := some (Except.error CreateError.concurrencyError) })
    else
      ({ db with rows := insertedRow db lid p m :: db.rows, nextId := db.nextId + 1 },
        { t with result := some (Except.ok (m + 1)) })
  | some _, some _ => (db, t)

/-- Shared database plus the two transactions' local states. -/
structure ConcState where
  db : AnalysisDB
  t1 : TxnState
  t2 : TxnState

/-- One scheduler step: `true` advances transaction 1, `false` transaction 2. -/
def concStep (lid : Nat) (p : AnalysisPayload) (s : ConcState) (who : Bool) : ConcState :=
  if who then
    let r := txnStep lid p s.db s.t1
    { s with db := r.1, t1 := r.2 }
  else
    let r := txnStep lid p s.db s.t2
    { s with db := r.1, t2 := r.2 }

/-- Run an interleaving schedule to completion. -/
def runSchedule (lid : Nat) (p : AnalysisPayload) (s : ConcState) : List Bool → ConcState
  | [] => s
  | w :: ws => runSchedule lid p (concStep lid p s w) ws

/-- The admissible outcomes of the race: both commit with the two successive
distinct versions, or the losing writer surfaces a `ConcurrencyError`. -/
def concOutcome (m : Nat) (t1 t2 : TxnState) : Prop :=
  (t1.result = some (Except.ok (m + 1)) ∧ t2.result = some (Except.ok (m + 2))) ∨
  (t2.result = some (Except.ok (m + 1)) ∧ t1.result = some (Except.ok (m + 2))) ∨
  (t1.result = some (Except.ok (m + 1)) ∧
    t2.result = some (Except.error CreateError.concurrencyError)) ∨
  (t2.result = some (Except.ok (m + 1)) ∧
    t1.result = some (Except.error CreateError.concurrencyError))

theorem pairUnique_cons_of_gt {rows : List AnalysisRow} {r : AnalysisRow} {lid : Nat}
    (hu : pairUnique rows) (hl : r.legislation_id = lid)
    (hgt : maxVersion rows lid < r.analysis_version) : pairUnique (r :: rows) := by
  intro x hx y hy hxy hvv
  rcases List.mem_cons.mp hx with hx1 | hx1 <;> rcases List.mem_cons.mp hy with hy1 | hy1
  · rw [hx1, hy1]
  · exfalso
    subst hx1
    have := version_le_maxVersion hy1 (hxy.symm.trans hl)
    omega
  · exfalso
    subst hy1
    have := version_le_maxVersion hx1 (hxy.trans hl)
    omega
  · exact hu x hx1 y hy1 hxy hvv

/-- C2: two concurrent createAnalysis calls for the same bill, in every
interleaving, yield two rows with distinct analysis_version values (never two
rows claiming the same version, the unique pair constraint being preserved),
and a losing writer receives a ConcurrencyError rather than silently
duplicating a version or losing an update. -/
theorem claim_C2_concurrent_allocation (db : AnalysisDB) (lid : Nat) (p : AnalysisPayload)
    (sched : List Bool) (hlen : sched.length = 4) (hcount : sched.count true = 2) :
    concOutcome (maxVersion db.rows lid)
        (runSchedule lid p ⟨db, TxnState.initial, TxnState.initial⟩ sched).t1
        (runSchedule lid p ⟨db, TxnState.initial, TxnState.initial⟩ sched).t2 ∧
      (∀ v : Nat,
        ¬((runSchedule lid p ⟨db, TxnState.initial, TxnState.initial⟩ sched).t1.result =
            some (Except.ok v) ∧
          (runSchedule lid p ⟨db, TxnState.initial, TxnState.initial⟩ sched).t2.result =
            some (Except.ok v))) ∧
      (pairUnique db.rows →
        pairUnique (runSchedule lid p ⟨db, TxnState.initial, TxnState.initial⟩ sched).db.rows) := by
  have hnone1 : findByVersion db.rows lid (maxVersion db.rows lid + 1) = none :=
    findByVersion_eq_none_of_lt (Nat.lt_succ_self _)
  have hfindIns : findByVersion (insertedRow db lid p (maxVersion db.rows lid) :: db.rows) lid
      (maxVersion db.rows lid + 1) = some (insertedRow db lid p (maxVersion db.rows lid)) := by
    rw [findByVersion_cons,
      if_pos (show (insertedRow db lid p (maxVersion db.rows lid)).legislation_id = lid ∧
        (insertedRow db lid p (maxVersion db.rows lid)).analysis_version =
          maxVersion db.rows lid + 1 from ⟨rfl, rfl⟩)]
  have hmaxIns : maxVersion (insertedRow db lid p (maxVersion db.rows lid) :: db.rows) lid =
      maxVersion db.rows lid + 1 := by
    rw [maxVersion_cons,
      if_pos (show (insertedRow db lid p (maxVersion db.rows lid)).legislation_id = lid from rfl)]
    show max (maxVersion db.rows lid + 1) (maxVersion db.rows lid) = maxVersion db.rows lid + 1
    omega
  have hnone2 : findByVersion (insertedRow db lid p (maxVersion db.rows lid) :: db.rows) lid
      (maxVersion db.rows lid + 2) = none := by
    apply findByVersion_eq_none_of_lt
    rw [hmaxIns]
    omega
  rcases sched with _ | ⟨a, _ | ⟨b, _ | ⟨c, _ | ⟨d, _ | ⟨e, tl⟩⟩⟩⟩⟩
  · simp at hlen
  · simp at hlen
  · simp at hlen
  · simp at hlen
  · cases a <;> cases b <;> cases c <;> cases d <;>
      try (exfalso; revert hcount; decide)
    all_goals
      refine ⟨?_, ?_, ?_⟩
      · simp [runSchedule, concStep, txnStep, TxnState.initial, hnone1, hfindIns, hmaxIns,
          hnone2, concOutcome]
      · intro v hv
        simp [runSchedule, concStep, txnStep, TxnState.initial, hnone1, hfindIns, hmaxIns,
          hnone2] at hv
        all_goals omega
      · intro hu
        simp only [runSchedule, concStep, txnStep, TxnState.initial, hnone1, hfindIns,
          hmaxIns, hnone2, Option.isSome_none, Option.isSome_some, Bool.false_eq_true,
          if_false, if_true, cond_true, cond_false]
        first
          | exact @pairUnique_cons_of_gt _ _ lid hu rfl (Nat.lt_succ_self _)
          | exact @pairUnique_cons_of_gt _ _ lid
              (@pairUnique_cons_of_gt _ _ lid hu rfl (Nat.lt_succ_self _))
              rfl (by rw [hmaxIns]; simp only [insertedRow]; omega)
  · simp at hlen

/-- Witness for C2: a concrete racy interleaving (both reads before both
writes) on a fresh bill. -/
theorem claim_C2_concurrent_allocation_witness :
    (([true, false, true, false] : List Bool).length = 4) ∧
      (([true, false, true, false] : List Bool).count true = 2) ∧
      (concOutcome (maxVersion exampleAnalysisDB.rows 1)
          (runSchedule 1 examplePayload ⟨exampleAnalysisDB, TxnState.initial, TxnState.initial⟩
            [true, false, true, false]).t1
          (runSchedule 1 examplePayload ⟨exampleAnalysisDB, TxnState.initial, TxnState.initial⟩
            [true, false, true, false]).t2 ∧
        (∀ v : Nat,
          ¬((runSchedule 1 examplePayload ⟨exampleAnalysisDB, TxnState.initial, TxnState.initial⟩
              [true, false, true, false]).t1.result = some (Except.ok v) ∧
            (runSchedule 1 examplePayload ⟨exampleAnalysisDB, TxnState.initial, TxnState.initial⟩
              [true, false, true, false]).t2.result = some (Except.ok v))) ∧
        (pairUnique exampleAnalysisDB.rows →
          pairUnique (runSchedule 1 examplePayload
            ⟨exampleAnalysisDB, TxnState.initial, TxnState.initial⟩
            [true, false, true, false]).db.rows)) :=
  ⟨by decide, by decide,
    claim_C2_concurrent_allocation exampleAnalysisDB 1 examplePayload
      [true, false, true, false] (by decide) (by decide)⟩

/-! ## Priority scoring (table `legislation_priorities`)

Columns from init_db.sh (audit columns aside): `id`, `legislation_id`,
`public_health_relevance`, `local_govt_relevance`, `overall_priority`,
`auto_categorized`, `auto_categories`, `manually_reviewed`,
`manual_priority`, `reviewer_notes`, `review_date`, `should_notify`,
`notification_sent`, `notification_date`.  The schema declares CHECK range
constraints on the four integer scores and a foreign key on
`legislation_id`; it declares no UNIQUE constraint on `legislation_id` and
no version column. -/

structure PriorityRow where
  id : Nat
  legislation_id : Nat
  public_health_relevance : Int
  local_govt_relevance : Int
  overall_priority : Int
  auto_categorized : Bool
  auto_categories : List String
  manually_reviewed : Bool
  manual_priority : Int
  reviewer_notes : Option String
  review_date : Option Nat
  should_notify : Bool
  notification_sent : Bool
  notification_date : Option Nat
deriving DecidableEq

/-- `CHECK (x BETWEEN 0 AND 100)` as declared on the four score columns. -/
def scoreInRange (n : Int) : Prop := 0 ≤ n ∧ n ≤ 100

instance (n : Int) : Decidable (scoreInRange n) := by
  unfold scoreInRange; infer_instance

/-- All CHECK constraints init_db.sh declares on one `legislation_priorities`
row. -/
def prioritiesRowChecks (r : PriorityRow) : Prop :=
  scoreInRange r.public_health_relevance ∧ scoreInRange r.local_govt_relevance ∧
    scoreInRange r.overall_priority ∧ scoreInRange r.manual_priority

instance (r : PriorityRow) : Decidable (prioritiesRowChecks r) := by
  unfold prioritiesRowChecks; infer_instance

/-- State of the `legislation_priorities` table. -/
structure PrioritiesDB where
  rows : List PriorityRow
deriving DecidableEq

/-- Everything the schema enforces on the `legislation_priorities` table for
a given set of existing legislation ids: the row CHECK constraints and the
foreign key.  init_db.sh declares nothing else on this table (in particular
no UNIQUE constraint on `legislation_id`). -/
def prioritiesTableChecks (legIds : List Nat) (db : PrioritiesDB) : Prop :=
  ∀ r ∈ db.rows, prioritiesRowChecks r ∧ r.legislation_id ∈ legIds

instance (legIds : List Nat) (db : PrioritiesDB) :
    Decidable (prioritiesTableChecks legIds db) := by
  unfold prioritiesTableChecks; infer_instance

/-- Clamping of automatically computed relevance scores into 0..100, per the
spec ("automatically computed relevance scores (0-100, clamped)"). -/
def clampScore (n : Int) : Int := max 0 (min 100 n)

/-- Modelled from the spec: an automatic scoring pass (section 4.3), whose
implementation is not part of the repository.  It writes only
`public_health_relevance`, `local_govt_relevance`, `overall_priority`,
`auto_categorized` and `auto_categories`. -/
def autoScorePass (r : PriorityRow) (ph lg ov : Int) (cats : List String) : PriorityRow :=
  { r with
      public_health_relevance := clampScore ph
      local_govt_relevance := clampScore lg
      overall_priority := clampScore ov
      auto_categorized := true
      auto_categories := cats }

/-- Modelled from the spec: a human review action (section 4.3), writing only
the manual fields. -/
def manualReview (r : PriorityRow) (mp : Int) (notes : Option String) (date : Nat) :
    PriorityRow :=
  { r with
      manually_reviewed := true
      manual_priority := mp
      reviewer_notes := notes
      review_date := some date }

/-- Modelled from the spec: `updatePriority` applies a per-row update to the
(single) priorities row of a bill in place; it never appends a row. -/
def updatePriorityWith (db : PrioritiesDB) (lid : Nat) (f : PriorityRow → PriorityRow) :
    PrioritiesDB :=
  { rows := db.rows.map (fun r => if r.legislation_id = lid then f r else r) }

/-- C5: an automatic scoring pass writes only the automatic fields and leaves
the manual fields (manually_reviewed, manual_priority, reviewer_notes,
review_date) unchanged; in particular, after a manual review setting
manually_reviewed, manual_priority=80, an automatic pass setting
auto_categorized and overall_priority=45 leaves manual_priority at 80. -/
theorem claim_C5_manual_override_persistence :
    (∀ (r : PriorityRow) (ph lg ov : Int) (cats : List String),
      (autoScorePass r ph lg ov cats).manually_reviewed = r.manually_reviewed ∧
      (autoScorePass r ph lg ov cats).manual_priority = r.manual_priority ∧
      (autoScorePass r ph lg ov cats).reviewer_notes = r.reviewer_notes ∧
      (autoScorePass r ph lg ov cats).review_date = r.review_date) ∧
    (∀ (r : PriorityRow) (ph lg : Int) (cats : List String)
      (notes : Option String) (date : Nat),
      (autoScorePass (manualReview r 80 notes date) ph lg 45 cats).manual_priority = 80 ∧
      (autoScorePass (manualReview r 80 notes date) ph lg 45 cats).manually_reviewed = true ∧
      (autoScorePass (manualReview r 80 notes date) ph lg 45 cats).auto_categorized = true ∧
      (autoScorePass (manualReview r 80 notes date) ph lg 45 cats).overall_priority = 45) :=
  ⟨fun _ _ _ _ _ => ⟨rfl, rfl, rfl, rfl⟩,
   fun _ _ _ _ _ _ => ⟨rfl, rfl, rfl, rfl⟩⟩

/-- A schema-admissible `legislation_priorities` state holding two rows for
the same bill: the schema has no unique constraint on `legislation_id`. -/
def twoRowsSameBill : PrioritiesDB :=
  { rows :=
      [{ id := 1, legislation_id := 1, public_health_relevance := 10,
         local_govt_relevance := 20, overall_priority := 15, auto_categorized := true,
         auto_categories := ["public_health"], manually_reviewed := false,
         manual_priority := 0, reviewer_notes := none, review_date := none,
         should_notify := false, notification_sent := false, notification_date := none },
       { id := 2, legislation_id := 1, public_health_relevance := 30,
         local_govt_relevance := 40, overall_priority := 35, auto_categorized := false,
         auto_categories := [], manually_reviewed := false, manual_priority := 0,
         reviewer_notes := none, review_date := none, should_notify := false,
         notification_sent := false, notification_date := none }] }

/-- Counterexample to C7 as stated: the storage layer admits a state with two
`legislation_priorities` rows for the same bill (all declared constraints
hold), so "for any two rows their legislation_id values differ" is not an
invariant the code enforces. -/
theorem claim_C7_unique_priorities_counterexample :
    prioritiesTableChecks [1] twoRowsSameBill ∧
      ¬(∀ r ∈ twoRowsSameBill.rows, ∀ s ∈ twoRowsSameBill.rows,
          r.legislation_id = s.legislation_id → r = s) := by
  constructor
  · decide
  · intro h
    have := h twoRowsSameBill.rows[0] (by decide) twoRowsSameBill.rows[1] (by decide) rfl
    simp [twoRowsSameBill] at this

/-- C7 as amended: `legislation_priorities` is not versioned and priority
updates modify rows in place, preserving the row count and every row's
`legislation_id`; but the schema does not itself enforce at most one row per
bill (see the counterexample), leaving one-row-per-bill to the application
layer. -/
theorem claim_C7_priorities_in_place :
    ∀ (db : PrioritiesDB) (lid : Nat) (f : PriorityRow → PriorityRow),
      (f = (fun r => autoScorePass r 0 0 0 []) ∨
        (∃ mp notes date, f = (fun r => manualReview r mp notes date))) →
      ((updatePriorityWith db lid f).rows.length = db.rows.length ∧
        (updatePriorityWith db lid f).rows.map (fun r => r.legislation_id) =
          db.rows.map (fun r => r.legislation_id)) := by
  intro db lid f hf
  constructor
  · simp [updatePriorityWith]
  · rw [updatePriorityWith, List.map_map]
    apply List.map_congr_left
    intro r hr
    show (if r.legislation_id = lid then f r else r).legislation_id = r.legislation_id
    by_cases h : r.legislation_id = lid
    · rw [if_pos h]
      rcases hf with rfl | ⟨mp, notes, date, rfl⟩
      · rfl
      · rfl
    · rw [if_neg h]

/-- Witness for the amended C7: an in-place automatic update of the example
two-row state preserves length and legislation ids. -/
theorem claim_C7_priorities_in_place_witness :
    ((fun r => autoScorePass r 0 0 0 []) = (fun r => autoScorePass r 0 0 0 []) ∨
      (∃ mp notes date,
        (fun r => autoScorePass r 0 0 0 []) = (fun r => manualReview r mp notes date))) ∧
    ((updatePriorityWith twoRowsSameBill 1 (fun r => autoScorePass r 0 0 0 [])).rows.length =
        twoRowsSameBill.rows.length ∧
      (updatePriorityWith twoRowsSameBill 1
          (fun r => autoScorePass r 0 0 0 [])).rows.map (fun r => r.legislation_id) =
        twoRowsSameBill.rows.map (fun r => r.legislation_id)) :=
  ⟨Or.inl rfl,
    claim_C7_priorities_in_place twoRowsSameBill 1 (fun r => autoScorePass r 0 0 0 [])
      (Or.inl rfl)⟩

/-! ## Confidence scores (`legislation_analysis` vs `impact_ratings`)

init_db.sh declares `confidence_score FLOAT` on `legislation_analysis` with
no CHECK constraint, but `confidence_score FLOAT CHECK (confidence_score
BETWEEN 0 AND 1)` on `impact_ratings`. -/

/-- The confidence score of an analysis row, when present, lies in [0, 1]. -/
def confidenceInRange (r : AnalysisRow) : Prop :=
  match r.confidence_score with
  | none => True
  | some c => 0 ≤ c ∧ c ≤ 1

instance (r : AnalysisRow) : Decidable (confidenceInRange r) := by
  unfold confidenceInRange
  cases r.confidence_score <;> infer_instance

/-- A `createAnalysis` payload whose confidence score is 2, out of [0, 1]. -/
def overConfidentPayload : AnalysisPayload :=
  { summary := some "expands rural broadband grants"
    key_points := []
    confidence_score := some 2 }

/-- The row `createAnalysis` persists for `overConfidentPayload` on a fresh
bill. -/
def overConfidentRow : AnalysisRow :=
  { id := 0
    legislation_id := 1
    analysis_version := 1
    previous_version_id := none
    summary := some "expands rural broadband grants"
    key_points := []
    confidence_score := some 2 }

/-- Counterexample to C8 as stated: `createAnalysis` persists an analysis row
with confidence_score = 2; the row satisfies every constraint init_db.sh
declares on `legislation_analysis` (only `analysis_version > 0`), so nothing
prevents persisting an out-of-range analysis confidence score. -/
theorem claim_C8_confidence_range_counterexample :
    createAnalysis exampleAnalysisDB 1 overConfidentPayload =
        Except.ok ({ legislationIds := [1], rows := [overConfidentRow], nextId := 1 },
          overConfidentRow) ∧
      overConfidentRow ∈
        ({ legislationIds := [1], rows := [overConfidentRow], nextId := 1 } : AnalysisDB).rows ∧
      analysisRowChecks overConfidentRow ∧
      ¬confidenceInRange overConfidentRow := by
  refine ⟨rfl, by decide, by decide, by decide⟩

/-- `impact_ratings` rows from init_db.sh (audit columns aside). -/
structure ImpactRatingRow where
  id : Nat
  legislation_id : Nat
  impact_category : ImpactCategoryEnum
  impact_level : ImpactLevelEnum
  impact_description : Option String
  affected_entities : List String
  confidence_score : Option Rat
  is_ai_generated : Bool
  reviewed_by : Option String
  review_date : Option Nat
deriving DecidableEq

/-- The CHECK constraint `confidence_score BETWEEN 0 AND 1` declared on
`impact_ratings` (a NULL score passes a SQL CHECK). -/
def impactRatingChecks (r : ImpactRatingRow) : Prop :=
  match r.confidence_score with
  | none => True
  | some c => 0 ≤ c ∧ c ≤ 1

instance (r : ImpactRatingRow) : Decidable (impactRatingChecks r) := by
  unfold impactRatingChecks
  cases r.confidence_score <;> infer_instance

inductive InsertError
  | checkViolation
deriving DecidableEq

/-- An insert into `impact_ratings`, which PostgreSQL accepts only when the
declared CHECK constraint holds. -/
def insertImpactRating (rows : List ImpactRatingRow) (r : ImpactRatingRow) :
    Except InsertError (List ImpactRatingRow) :=
  if impactRatingChecks r then Except.ok (r :: rows) else Except.error InsertError.checkViolation

/-- C8 as amended: the [0,1] bound on confidence scores is enforced by the
schema for `impact_ratings` (every row a successful insert persists has its
confidence score, when present, in [0,1], and the table-wide invariant is
preserved), while `legislation_analysis.confidence_score` carries no such
constraint (see the counterexample). -/
theorem claim_C8_rating_confidence_range (rows : List ImpactRatingRow) (r : ImpactRatingRow)
    (rows' : List ImpactRatingRow) (h : insertImpactRating rows r = Except.ok rows')
    (hall : ∀ s ∈ rows, impactRatingChecks s) :
    ∀ s ∈ rows', impactRatingChecks s ∧
      (∀ c, s.confidence_score = some c → 0 ≤ c ∧ c ≤ 1) := by
  unfold insertImpactRating at h
  by_cases hc : impactRatingChecks r
  · rw [if_pos hc] at h
    have hrows : rows' = r :: rows := (Except.ok.inj h).symm
    subst hrows
    intro s hs
    have hsc : impactRatingChecks s := by
      rcases List.mem_cons.mp hs with rfl | hs
      · exact hc
      · exact hall s hs
    refine ⟨hsc, ?_⟩
    intro c hcs
    unfold impactRatingChecks at hsc
    rw [hcs] at hsc
    exact hsc
  · rw [if_neg hc] at h
    exact absurd h (by simp)

/-- An in-range impact rating used to exercise the amended C8 theorem. -/
def exampleRating : ImpactRatingRow :=
  { id := 1
    legislation_id := 1
    impact_category := ImpactCategoryEnum.public_health
    impact_level := ImpactLevelEnum.moderate
    impact_description := none
    affected_entities := []
    confidence_score := some 1
    is_ai_generated := true
    reviewed_by := none
    review_date := none }

/-- Witness for the amended C8: inserting an in-range rating into the empty
table succeeds and every stored confidence score is in range. -/
theorem claim_C8_rating_confidence_range_witness :
    insertImpactRating [] exampleRating = Except.ok [exampleRating] ∧
      (∀ s ∈ ([] : List ImpactRatingRow), impactRatingChecks s) ∧
      (∀ s ∈ [exampleRating], impactRatingChecks s ∧
        (∀ c, s.confidence_score = some c → 0 ≤ c ∧ c ≤ 1)) :=
  ⟨by unfold insertImpactRating
      rw [if_pos (show impactRatingChecks exampleRating by decide)],
   by simp,
   claim_C8_rating_confidence_range [] exampleRating [exampleRating]
     (by
       unfold insertImpactRating
       rw [if_pos (show impactRatingChecks exampleRating by decide)])
     (by simp)⟩

/-! ## Users (table `users`)

init_db.sh declares `email VARCHAR UNIQUE NOT NULL` on `users`. -/

structure UserRow where
  id : Nat
  email : String
  name : Option String
  is_active : Bool
  role : String
deriving DecidableEq

structure UsersDB where
  rows : List UserRow
  nextId : Nat
deriving DecidableEq

inductive DbError
  | uniqueViolation
deriving DecidableEq

/-- The UNIQUE constraint on `users.email`: two rows agreeing on email are
the same row. -/
def emailsUnique (db : UsersDB) : Prop :=
  ∀ r ∈ db.rows, ∀ s ∈ db.rows, r.email = s.email → r = s

instance (db : UsersDB) : Decidable (emailsUnique db) := by
  unfold emailsUnique; infer_instance

/-- The `users` row a fresh insert persists: SERIAL id, given email, name
and role, `is_active` defaulting to TRUE. -/
def newUserRow (db : UsersDB) (email : String) (name : Option String) (role : String) :
    UserRow :=
  { id := db.nextId, email := email, name := name, is_active := true, role := role }

/-- An insert into `users`, which PostgreSQL rejects (persisting nothing)
when the email is already present, per `email VARCHAR UNIQUE NOT NULL`. -/
def insertUser (db : UsersDB) (email : String) (name : Option String) (role : String) :
    Except DbError UsersDB :=
  if db.rows.any (fun r => r.email == email) then Except.error DbError.uniqueViolation
  else Except.ok
    { rows := newUserRow db email name role :: db.rows
      nextId := db.nextId + 1 }

/-- C9: distinct rows of `users` always carry distinct emails (the UNIQUE
constraint is an invariant of inserts), and inserting a user with an email
already present fails with a unique violation, persisting no new row. -/
theorem claim_C9_unique_email (db : UsersDB) (h : emailsUnique db) :
    (∀ (email : String) (name : Option String) (role : String) (db' : UsersDB),
      insertUser db email name role = Except.ok db' → emailsUnique db') ∧
    (∀ (email : String) (name : Option String) (role : String),
      (∃ r ∈ db.rows, r.email = email) →
        insertUser db email name role = Except.error DbError.uniqueViolation) := by
  constructor
  · intro email name role db' hins
    unfold insertUser at hins
    by_cases hc : db.rows.any (fun r => r.email == email)
    · rw [if_pos hc] at hins
      exact absurd hins (by simp)
    · rw [if_neg hc] at hins
      have hdb :
          db' = { rows := newUserRow db email name role :: db.rows, nextId := db.nextId + 1 } :=
        (Except.ok.inj hins).symm
      subst hdb
      have hfresh : ∀ r ∈ db.rows, r.email ≠ email := by
        intro r hr heq
        exact hc (List.any_eq_true.mpr ⟨r, hr, by simp [heq]⟩)
      intro r hr s hs hrs
      rcases List.mem_cons.mp hr with rfl | hr1 <;> rcases List.mem_cons.mp hs with hs1 | hs1
      · rw [hs1]
      · exact absurd hrs.symm (hfresh s hs1)
      · rw [hs1] at hrs ⊢
        exact absurd hrs (hfresh r hr1)
      · exact h r hr1 s hs1 hrs
  · intro email name role hex
    obtain ⟨r, hr, hre⟩ := hex
    unfold insertUser
    rw [if_pos (List.any_eq_true.mpr ⟨r, hr, by simp [hre]⟩)]

/-- A two-user table with distinct emails. -/
def exampleUsers : UsersDB :=
  { rows :=
      [{ id := 1, email := "admin@policypulse.org", name := some "System Administrator",
         is_active := true, role := "admin" },
       { id := 2, email := "analyst@policypulse.org", name := none,
         is_active := true, role := "user" }]
    nextId := 3 }

/-- Witness for C9: on the concrete two-user table, re-inserting an existing
email fails with a unique violation. -/
theorem claim_C9_unique_email_witness :
    emailsUnique exampleUsers ∧
      insertUser exampleUsers "admin@policypulse.org" none "user" =
        Except.error DbError.uniqueViolation :=
  ⟨by decide,
    (claim_C9_unique_email exampleUsers (by decide)).2 "admin@policypulse.org" none "user"
      ⟨exampleUsers.rows[0], by decide, rfl⟩⟩

/-! ## Legislation registry, full-text-search trigger and ingestion upsert

The `legislation` table, its `unique_bill_identifier` constraint, the
`tsvector_update` BEFORE INSERT OR UPDATE trigger and its function
`legislation_search_update_trigger` are embedded from init_db.sh.  The
ingestion upsert itself is a contract for an external collaborator (spec
section 4.1) and is modelled from the spec. -/

/-- The tsvector weight labels used by the trigger (`'A'` and `'B'`). -/
inductive SearchWeight
  | A
  | B
deriving DecidableEq

/-- PostgreSQL `setweight`: labels every lexeme of a vector with a weight. -/
def setweight (lexemes : List String) (w : SearchWeight) : List (String × SearchWeight) :=
  lexemes.map (fun lexeme => (lexeme, w))

/-- PostgreSQL `coalesce(text_value, '')` as used by the trigger. -/
def coalesceText : Option String → String
  | some s => s
  | none => ""

/-- Modelled from the spec: the canonical content hash over the
externally-sourced mutable fields (title, description, status, action dates,
raw response), modelled as the injective tuple of those fields. -/
structure ContentHash where
  title : String
  description : Option String
  status : BillStatusEnum
  bill_introduced_date : Option Nat
  bill_last_action_date : Option Nat
  raw_response : String
deriving DecidableEq

/-- The `legislation` table columns used by the claims (audit columns and
`raw_api_response` aside).  `title` is `TEXT NOT NULL`, `description` is
nullable, `search_vector tsvector` is nullable. -/
structure LegislationRow where
  id : Nat
  external_id : String
  data_source : DataSourceEnum
  govt_type : GovtTypeEnum
  govt_source : String
  bill_number : String
  title : String
  description : Option String
  bill_status : BillStatusEnum
  bill_introduced_date : Option Nat
  bill_last_action_date : Option Nat
  last_api_check : Nat
  change_hash : Option ContentHash
  search_vector : Option (List (String × SearchWeight))
deriving DecidableEq

/-- `legislation_search_update_trigger` from init_db.sh:
`NEW.search_vector = setweight(to_tsvector('english', coalesce(NEW.title,
'')), 'A') || setweight(to_tsvector('english', coalesce(NEW.description,
'')), 'B')`.  `to_tsvector('english', -)` is a PostgreSQL builtin,
abstracted as the parameter `tsv`. -/
def legislation_search_update_trigger (tsv : String → List String)
    (row : LegislationRow) : LegislationRow :=
  { row with
      search_vector :=
        some (setweight (tsv (coalesceText (some row.title))) SearchWeight.A ++
          setweight (tsv (coalesceText row.description)) SearchWeight.B) }

/-- A normalized bill record handed to the ingestion upsert (spec section 6). -/
structure BillRecord where
  external_id : String
  data_source : DataSourceEnum
  govt_type : GovtTypeEnum
  govt_source : String
  bill_number : String
  title : String
  description : Option String
  status : BillStatusEnum
  bill_introduced_date : Option Nat
  bill_last_action_date : Option Nat
  raw_response : String
deriving DecidableEq

/-- Modelled from the spec: step 1 of the upsert contract, the content hash
of a fetched record. -/
def computeHash (r : BillRecord) : ContentHash :=
  { title := r.title
    description := r.description
    status := r.status
    bill_introduced_date := r.bill_introduced_date
    bill_last_action_date := r.bill_last_action_date
    raw_response := r.raw_response }

/-- `legislation_text` columns used by the claims. -/
structure TextVersionRow where
  id : Nat
  legislation_id : Nat
  version_num : Nat
  text_content : Option String
deriving DecidableEq

/-- State of the legislation region: the `legislation`, `legislation_text`
and `legislation_analysis` tables, the log of rejected terminal-state
transitions, and the id sequences. -/
structure LegislationDB where
  legislation : List LegislationRow
  texts : List TextVersionRow
  analyses : List AnalysisRow
  statusRejections : List (Nat × BillStatusEnum × BillStatusEnum)
  nextId : Nat
  nextTextId : Nat
  nextAnalysisId : Nat
deriving DecidableEq

/-- An insert into `legislation`: the `tsvector_update` BEFORE INSERT
trigger fires on the new row. -/
def insertLegislation (tsv : String → List String) (db : LegislationDB)
    (row : LegislationRow) : LegislationDB :=
  { db with legislation := legislation_search_update_trigger tsv row :: db.legislation }

/-- An update of one `legislation` row by id: the `tsvector_update` BEFORE
UPDATE trigger fires on every updated row. -/
def updateLegislation (tsv : String → List String) (db : LegislationDB) (id : Nat)
    (f : LegislationRow → LegislationRow) : LegislationDB :=
  { db with
      legislation := db.legislation.map
        (fun x => if x.id = id then legislation_search_update_trigger tsv (f x) else x) }

/-- Match of a stored row against a record's unique identity
`(data_source, govt_source, bill_number)` (`unique_bill_identifier`). -/
def matchesBill (x : LegislationRow) (r : BillRecord) : Bool :=
  x.data_source == r.data_source && x.govt_source == r.govt_source &&
    x.bill_number == r.bill_number

/-- Step 2 of the upsert contract: lookup by unique identity. -/
def findBill (rows : List LegislationRow) (r : BillRecord) : Option LegislationRow :=
  rows.find? (fun x => matchesBill x r)

/-- Number of stored rows carrying a record's identity. -/
def countMatching (rows : List LegislationRow) (r : BillRecord) : Nat :=
  (rows.filter (fun x => matchesBill x r)).length

/-- Terminal bill lifecycle states (spec glossary: passed, defeated, vetoed,
enacted). -/
def isTerminal : BillStatusEnum → Bool
  | BillStatusEnum.passed => true
  | BillStatusEnum.defeated => true
  | BillStatusEnum.vetoed => true
  | BillStatusEnum.enacted => true
  | _ => false

/-- Modelled from the spec: the terminal-state guard of section 4.1 — a
transition out of a terminal state is rejected (the stored value kept, the
attempt logged), every other attempted status is applied.  Returns the
status to store and whether the attempt was rejected. -/
def applyStatusUpdate (current attempted : BillStatusEnum) : BillStatusEnum × Bool :=
  if isTerminal current && attempted != current then (current, true) else (attempted, false)

/-- Next `version_num` for a bill's text versions (`unique_text_version`). -/
def nextTextVersion (texts : List TextVersionRow) (lid : Nat) : Nat :=
  texts.foldr (fun t m => if t.legislation_id = lid then max t.version_num m else m) 0 + 1

/-- Modelled from the spec: appending the new Text version and (when an
analysis payload is available) the new Analysis version for an inserted or
changed bill (steps 2 and 4 of the upsert contract). -/
def appendVersions (db : LegislationDB) (lid : Nat) (r : BillRecord)
    (pay : Option AnalysisPayload) : LegislationDB :=
  let t : TextVersionRow :=
    { id := db.nextTextId
      legislation_id := lid
      version_num := nextTextVersion db.texts lid
      text_content := r.description }
  let db1 := { db with texts := t :: db.texts, nextTextId := db.nextTextId + 1 }
  match pay with
  | none => db1
  | some p =>
    let v := maxVersion db1.analyses lid + 1
    let a : AnalysisRow :=
      { id := db1.nextAnalysisId
        legislation_id := lid
        analysis_version := v
        previous_version_id := (findByVersion db1.analyses lid (v - 1)).map (fun x => x.id)
        summary := p.summary
        key_points := p.key_points
        confidence_score := p.confidence_score }
    { db1 with analyses := a :: db1.analyses, nextAnalysisId := db1.nextAnalysisId + 1 }

/-- The `legislation` row inserted for a record absent from the registry:
status `new`, the record's fields, the computed hash (step 2 of the upsert
contract). -/
def freshLegislationRow (db : LegislationDB) (r : BillRecord) (now : Nat) : LegislationRow :=
  { id := db.nextId
    external_id := r.external_id
    data_source := r.data_source
    govt_type := r.govt_type
    govt_source := r.govt_source
    bill_number := r.bill_number
    title := r.title
    description := r.description
    bill_status := BillStatusEnum.new
    bill_introduced_date := r.bill_introduced_date
    bill_last_action_date := r.bill_last_action_date
    last_api_check := now
    change_hash := some (computeHash r)
    search_vector := none }

/-- The field update applied to a present row whose hash changed (step 4 of
the upsert contract): mutable fields, guarded status, new hash. -/
def contentUpdate (r : BillRecord) (now : Nat) (stored : BillStatusEnum)
    (x : LegislationRow) : LegislationRow :=
  { x with
      title := r.title
      description := r.description
      bill_status := (applyStatusUpdate stored r.status).1
      bill_introduced_date := r.bill_introduced_date
      bill_last_action_date := r.bill_last_action_date
      last_api_check := now
      change_hash := some (computeHash r) }

/-- What the upsert returns to the ingestion collaborator. -/
structure IngestResult where
  db : LegislationDB
  legislation_id : Nat
  changed : Bool

/-- Modelled from the spec: the ingestion upsert of section 4.1.  Lookup by
unique identity; if absent, insert a fresh row (status `new`, hash stored)
and create version-1 Text/Analysis rows as available; if present with an
unchanged hash, update only `last_api_check`; if present with a changed
hash, update the mutable fields (status through the terminal-state guard,
logging a rejected transition), store the new hash, and append new
Text/Analysis versions. -/
def ingestBill (tsv : String → List String) (db : LegislationDB) (r : BillRecord)
    (pay : Option AnalysisPayload) (now : Nat) : IngestResult :=
  match findBill db.legislation r with
  | none =>
    let lid := db.nextId
    let db1 := insertLegislation tsv { db with nextId := db.nextId + 1 }
      (freshLegislationRow db r now)
    { db := appendVersions db1 lid r pay, legislation_id := lid, changed := true }
  | some row =>
    if row.change_hash == some (computeHash r) then
      { db := updateLegislation tsv db row.id (fun x => { x with last_api_check := now })
        legislation_id := row.id
        changed := false }
    else
      let su := applyStatusUpdate row.bill_status r.status
      let db1 := updateLegislation tsv db row.id (contentUpdate r now row.bill_status)
      let db2 :=
        if su.2 then
          { db1 with
              statusRejections := (row.id, row.bill_status, r.status) :: db1.statusRejections }
        else db1
      { db := appendVersions db2 row.id r pay, legislation_id := row.id, changed := true }

/-! ### Helper notions and lemmas for the legislation region -/

/-- The search vector the trigger computes for a row's current title and
description. -/
def vectorOf (tsv : String → List String) (x : LegislationRow) :
    List (String × SearchWeight) :=
  setweight (tsv (coalesceText (some x.title))) SearchWeight.A ++
    setweight (tsv (coalesceText x.description)) SearchWeight.B

/-- A row whose stored search vector reflects its current title and
description. -/
def triggered (tsv : String → List String) (x : LegislationRow) : Prop :=
  x.search_vector = some (vectorOf tsv x)

/-- A row with its `last_api_check` forgotten, to compare writes up to the
`last_api_check` column. -/
def stripApiCheck (x : LegislationRow) : LegislationRow :=
  { x with last_api_check := 0 }

/-- The primary-key discipline of the `legislation` table: no two rows share
an id. -/
def idsDistinct (rows : List LegislationRow) : Prop :=
  List.Pairwise (fun a b => a.id ≠ b.id) rows

/-- Two rows carrying the same `(data_source, govt_source, bill_number)`
identity. -/
def sameIdentity (a b : LegislationRow) : Prop :=
  a.data_source = b.data_source ∧ a.govt_source = b.govt_source ∧
    a.bill_number = b.bill_number

instance (a b : LegislationRow) : Decidable (sameIdentity a b) := by
  unfold sameIdentity; infer_instance

/-- The `unique_bill_identifier` constraint: no two rows share an identity. -/
def identitiesDistinct (rows : List LegislationRow) : Prop :=
  List.Pairwise (fun a b => ¬sameIdentity a b) rows

instance (rows : List LegislationRow) : Decidable (idsDistinct rows) := by
  unfold idsDistinct; infer_instance

instance (rows : List LegislationRow) : Decidable (identitiesDistinct rows) := by
  unfold identitiesDistinct; infer_instance

theorem findBill_cons (a : LegislationRow) (rows : List LegislationRow) (r : BillRecord) :
    findBill (a :: rows) r = if matchesBill a r then some a else findBill rows r := by
  by_cases h : matchesBill a r
  · rw [if_pos h]
    exact List.find?_cons_of_pos _ h
  · rw [if_neg h]
    exact List.find?_cons_of_neg _ (by simpa using h)

theorem findBill_mem {rows : List LegislationRow} {r : BillRecord} {row : LegislationRow}
    (h : findBill rows r = some row) : row ∈ rows ∧ matchesBill row r = true := by
  unfold findBill at h
  have h2 := List.find?_some h
  exact ⟨List.mem_of_find?_eq_some h, by simpa using h2⟩

theorem countMatching_cons (a : LegislationRow) (rows : List LegislationRow) (r : BillRecord) :
    countMatching (a :: rows) r =
      (if matchesBill a r then 1 else 0) + countMatching rows r := by
  unfold countMatching
  by_cases h : matchesBill a r
  · rw [if_pos h, List.filter_cons_of_pos (by simpa using h), List.length_cons]
    omega
  · rw [if_neg h, List.filter_cons_of_neg (by simpa using h)]
    omega

theorem countMatching_map (rows : List LegislationRow) (r : BillRecord)
    (g : LegislationRow → LegislationRow)
    (hg : ∀ x, matchesBill (g x) r = matchesBill x r) :
    countMatching (rows.map g) r = countMatching rows r := by
  unfold countMatching
  rw [List.filter_map, List.length_map]
  congr 1
  apply List.filter_congr
  intro x _
  exact hg x

theorem countMatching_eq_zero {rows : List LegislationRow} {r : BillRecord}
    (h : findBill rows r = none) : countMatching rows r = 0 := by
  unfold countMatching
  rw [List.length_eq_zero, List.filter_eq_nil_iff]
  intro x hx
  have := List.find?_eq_none.mp h x hx
  simpa using this

theorem countMatching_pos {rows : List LegislationRow} {r : BillRecord}
    {row : LegislationRow} (h : findBill rows r = some row) :
    1 ≤ countMatching rows r := by
  obtain ⟨hm, hp⟩ := findBill_mem h
  unfold countMatching
  have : row ∈ rows.filter (fun x => matchesBill x r) := List.mem_filter.mpr ⟨hm, hp⟩
  exact List.length_pos.mpr (List.ne_nil_of_mem this)

theorem matching_sameIdentity {x y : LegislationRow} {r : BillRecord}
    (hx : matchesBill x r = true) (hy : matchesBill y r = true) : sameIdentity x y := by
  unfold matchesBill at hx hy
  simp only [Bool.and_eq_true, beq_iff_eq] at hx hy
  exact ⟨hx.1.1.trans hy.1.1.symm, hx.1.2.trans hy.1.2.symm, hx.2.trans hy.2.symm⟩

theorem countMatching_le_one {rows : List LegislationRow} (r : BillRecord)
    (h : identitiesDistinct rows) : countMatching rows r ≤ 1 := by
  induction rows with
  | nil =>
    show (0 : Nat) ≤ 1
    omega
  | cons a rest ih =>
    obtain ⟨ha, hrest⟩ := List.pairwise_cons.mp h
    rw [countMatching_cons]
    by_cases hm : matchesBill a r
    · rw [if_pos hm]
      have h0 : countMatching rest r = 0 := by
        unfold countMatching
        rw [List.length_eq_zero, List.filter_eq_nil_iff]
        intro y hy hmy
        exact ha y hy (matching_sameIdentity hm (by simpa using hmy))
      omega
    · rw [if_neg hm]
      have := ih hrest
      omega

theorem mem_id_eq {rows : List LegislationRow} (h : idsDistinct rows) {x y : LegislationRow}
    (hx : x ∈ rows) (hy : y ∈ rows) (hid : x.id = y.id) : x = y := by
  induction rows with
  | nil => cases hx
  | cons a rest ih =>
    obtain ⟨ha, hrest⟩ := List.pairwise_cons.mp h
    rcases List.mem_cons.mp hx with hx1 | hx1 <;> rcases List.mem_cons.mp hy with hy1 | hy1
    · rw [hx1, hy1]
    · exfalso
      subst hx1
      exact ha y hy1 hid
    · exfalso
      subst hy1
      exact ha x hx1 hid.symm
    · exact ih hrest hx1 hy1

/-- An update function that keeps a row's id and unique identity. -/
def preservesIdentity (g : LegislationRow → LegislationRow) : Prop :=
  ∀ x, (g x).id = x.id ∧ (g x).data_source = x.data_source ∧
    (g x).govt_source = x.govt_source ∧ (g x).bill_number = x.bill_number

theorem matchesBill_of_preserves {g : LegislationRow → LegislationRow}
    (hg : preservesIdentity g) (x : LegislationRow) (r : BillRecord) :
    matchesBill (g x) r = matchesBill x r := by
  obtain ⟨-, h1, h2, h3⟩ := hg x
  unfold matchesBill
  rw [h1, h2, h3]

theorem findBill_map (rows : List LegislationRow) (r : BillRecord)
    (g : LegislationRow → LegislationRow) (hg : preservesIdentity g) :
    findBill (rows.map g) r = (findBill rows r).map g := by
  induction rows with
  | nil => rfl
  | cons a rows ih =>
    rw [List.map_cons, findBill_cons, findBill_cons, matchesBill_of_preserves hg]
    by_cases h : matchesBill a r
    · rw [if_pos h, if_pos h]
      rfl
    · rw [if_neg h, if_neg h, ih]

theorem idsDistinct_map {rows : List LegislationRow} (h : idsDistinct rows)
    (g : LegislationRow → LegislationRow) (hg : preservesIdentity g) :
    idsDistinct (rows.map g) := by
  unfold idsDistinct at h ⊢
  rw [List.pairwise_map]
  exact h.imp (fun hab => by rw [(hg _).1, (hg _).1]; exact hab)

theorem sameIdentity_map {g : LegislationRow → LegislationRow} (hg : preservesIdentity g)
    (a b : LegislationRow) : sameIdentity (g a) (g b) ↔ sameIdentity a b := by
  obtain ⟨-, ha1, ha2, ha3⟩ := hg a
  obtain ⟨-, hb1, hb2, hb3⟩ := hg b
  unfold sameIdentity
  rw [ha1, ha2, ha3, hb1, hb2, hb3]

theorem identitiesDistinct_map {rows : List LegislationRow} (h : identitiesDistinct rows)
    (g : LegislationRow → LegislationRow) (hg : preservesIdentity g) :
    identitiesDistinct (rows.map g) := by
  unfold identitiesDistinct at h ⊢
  rw [List.pairwise_map]
  exact h.imp (fun hab hs => hab ((sameIdentity_map hg _ _).mp hs))

theorem appendVersions_legislation (db : LegislationDB) (lid : Nat) (r : BillRecord)
    (pay : Option AnalysisPayload) :
    (appendVersions db lid r pay).legislation = db.legislation := by
  cases pay <;> rfl

theorem appendVersions_statusRejections (db : LegislationDB) (lid : Nat) (r : BillRecord)
    (pay : Option AnalysisPayload) :
    (appendVersions db lid r pay).statusRejections = db.statusRejections := by
  cases pay <;> rfl

/-- C6: on every insert or update of a legislation row, the search vector is
recomputed synchronously in the same write (the write itself produces the
row through the trigger) as the concatenation of the title lexemes weighted
A and the description lexemes weighted B, so every written row's stored
vector reflects its current title and description. -/
theorem claim_C6_search_vector_synchronous (tsv : String → List String)
    (db : LegislationDB) (row : LegislationRow) (id : Nat)
    (f : LegislationRow → LegislationRow) :
    (legislation_search_update_trigger tsv row).search_vector =
        some (setweight (tsv (coalesceText (some row.title))) SearchWeight.A ++
          setweight (tsv (coalesceText row.description)) SearchWeight.B) ∧
      (insertLegislation tsv db row).legislation =
        legislation_search_update_trigger tsv row :: db.legislation ∧
      (∀ x ∈ (insertLegislation tsv db row).legislation,
        x ∈ db.legislation ∨ triggered tsv x) ∧
      (∀ x ∈ (updateLegislation tsv db id f).legislation,
        x ∈ db.legislation ∨ triggered tsv x) := by
  refine ⟨rfl, rfl, ?_, ?_⟩
  · intro x hx
    rcases List.mem_cons.mp hx with hx1 | hx1
    · right
      rw [hx1]
      rfl
    · exact Or.inl hx1
  · intro x hx
    obtain ⟨y, hy, rfl⟩ := List.mem_map.mp hx
    by_cases h : y.id = id
    · right
      rw [if_pos h]
      rfl
    · left
      rw [if_neg h]
      exact hy

/-- An empty legislation-region state, for exercising the theorems. -/
def emptyLegislationDB : LegislationDB :=
  { legislation := [], texts := [], analyses := [], statusRejections := []
    nextId := 1, nextTextId := 1, nextAnalysisId := 1 }

/-- A concrete legislation row with a NULL description. -/
def exampleRow : LegislationRow :=
  { id := 7
    external_id := "1628917"
    data_source := DataSourceEnum.legiscan
    govt_type := GovtTypeEnum.state
    govt_source := "TX"
    bill_number := "HB1"
    title := "General Appropriations Bill"
    description := none
    bill_status := BillStatusEnum.introduced
    bill_introduced_date := some 100
    bill_last_action_date := some 200
    last_api_check := 300
    change_hash := none
    search_vector := none }

/-- A stand-in lexer for the PostgreSQL `to_tsvector('english', -)` builtin,
used to instantiate the trigger theorems. -/
def exampleTsv (s : String) : List String :=
  s.splitOn " "

/-- Witness for C6 at a concrete write. -/
theorem claim_C6_search_vector_synchronous_witness :
    (legislation_search_update_trigger exampleTsv exampleRow).search_vector =
        some (setweight (exampleTsv (coalesceText (some exampleRow.title))) SearchWeight.A ++
          setweight (exampleTsv (coalesceText exampleRow.description)) SearchWeight.B) ∧
      (insertLegislation exampleTsv emptyLegislationDB exampleRow).legislation =
        legislation_search_update_trigger exampleTsv exampleRow ::
          emptyLegislationDB.legislation ∧
      (∀ x ∈ (insertLegislation exampleTsv emptyLegislationDB exampleRow).legislation,
        x ∈ emptyLegislationDB.legislation ∨ triggered exampleTsv x) ∧
      (∀ x ∈ (updateLegislation exampleTsv emptyLegislationDB 7
          (fun x => { x with title := "amended" })).legislation,
        x ∈ emptyLegislationDB.legislation ∨ triggered exampleTsv x) :=
  claim_C6_search_vector_synchronous exampleTsv emptyLegislationDB exampleRow 7
    (fun x => { x with title := "amended" })

/-- C10: the trigger is total at the write boundary — it coalesces a NULL
description (and title) to the empty string, so the row stored by any insert
or update always carries a defined (non-NULL) search vector, including rows
whose description is NULL. -/
theorem claim_C10_search_vector_total (tsv : String → List String) (db : LegislationDB)
    (row : LegislationRow) (id : Nat) (f : LegislationRow → LegislationRow) :
    (legislation_search_update_trigger tsv row).search_vector ≠ none ∧
      (row.description = none →
        (legislation_search_update_trigger tsv row).search_vector =
          some (setweight (tsv row.title) SearchWeight.A ++
            setweight (tsv "") SearchWeight.B)) ∧
      (∀ x ∈ (insertLegislation tsv db row).legislation,
        x ∈ db.legislation ∨ x.search_vector ≠ none) ∧
      (∀ x ∈ (updateLegislation tsv db id f).legislation,
        x ∈ db.legislation ∨ x.search_vector ≠ none) := by
  refine ⟨by simp [legislation_search_update_trigger], ?_, ?_, ?_⟩
  · intro h
    unfold legislation_search_update_trigger
    rw [h]
    rfl
  · intro x hx
    rcases List.mem_cons.mp hx with hx1 | hx1
    · right
      rw [hx1]
      simp [legislation_search_update_trigger]
    · exact Or.inl hx1
  · intro x hx
    obtain ⟨y, hy, rfl⟩ := List.mem_map.mp hx
    by_cases h : y.id = id
    · right
      rw [if_pos h]
      simp [legislation_search_update_trigger]
    · left
      rw [if_neg h]
      exact hy

/-- Witness for C10 at a concrete row whose description is NULL. -/
theorem claim_C10_search_vector_total_witness :
    (legislation_search_update_trigger exampleTsv exampleRow).search_vector ≠ none ∧
      (exampleRow.description = none →
        (legislation_search_update_trigger exampleTsv exampleRow).search_vector =
          some (setweight (exampleTsv exampleRow.title) SearchWeight.A ++
            setweight (exampleTsv "") SearchWeight.B)) ∧
      (∀ x ∈ (insertLegislation exampleTsv emptyLegislationDB exampleRow).legislation,
        x ∈ emptyLegislationDB.legislation ∨ x.search_vector ≠ none) ∧
      (∀ x ∈ (updateLegislation exampleTsv emptyLegislationDB 7
          (fun x => { x with description := none })).legislation,
        x ∈ emptyLegislationDB.legislation ∨ x.search_vector ≠ none) :=
  claim_C10_search_vector_total exampleTsv emptyLegislationDB exampleRow 7
    (fun x => { x with description := none })

/-- C4: a bill in a terminal status that receives an ingestion update
attempting a different status keeps its stored status; the attempt is
logged as a rejection, not applied. -/
theorem claim_C4_terminal_state_guard (tsv : String → List String) (db : LegislationDB)
    (r : BillRecord) (pay : Option AnalysisPayload) (now : Nat) (row : LegislationRow)
    (hfind : findBill db.legislation r = some row)
    (hterm : isTerminal row.bill_status = true)
    (hdiff : r.status ≠ row.bill_status)
    (hhash : row.change_hash ≠ some (computeHash r)) :
    (∀ x ∈ (ingestBill tsv db r pay now).db.legislation,
        x.id = row.id → x.bill_status = row.bill_status) ∧
      (row.id, row.bill_status, r.status) ∈ (ingestBill tsv db r pay now).db.statusRejections := by
  have hbeq : (row.change_hash == some (computeHash r)) = false :=
    beq_eq_false_iff_ne.mpr hhash
  have hsu : applyStatusUpdate row.bill_status r.status = (row.bill_status, true) := by
    unfold applyStatusUpdate
    rw [if_pos]
    rw [hterm, Bool.true_and, bne_iff_ne]
    exact hdiff
  have hres : ingestBill tsv db r pay now =
      { db := appendVersions
          { updateLegislation tsv db row.id (contentUpdate r now row.bill_status) with
            statusRejections :=
              (row.id, row.bill_status, r.status) ::
                (updateLegislation tsv db row.id
                  (contentUpdate r now row.bill_status)).statusRejections }
          row.id r pay
        legislation_id := row.id
        changed := true } := by
    unfold ingestBill
    rw [hfind]
    show (if (row.change_hash == some (computeHash r)) = true then _ else _) = _
    rw [hbeq, if_neg (by simp)]
    rw [hsu]
    rfl
  rw [hres]
  constructor
  · intro x hx hxid
    rw [appendVersions_legislation] at hx
    obtain ⟨y, hy, rfl⟩ := List.mem_map.mp hx
    by_cases h : y.id = row.id
    · rw [if_pos h]
      show (contentUpdate r now row.bill_status y).bill_status = row.bill_status
      show (applyStatusUpdate row.bill_status r.status).1 = row.bill_status
      rw [hsu]
    · exfalso
      rw [if_neg h] at hxid
      exact h hxid
  · rw [appendVersions_statusRejections]
    exact List.mem_cons_self _ _

/-- A record for the example bill, attempting status `introduced`. -/
def exampleBill : BillRecord :=
  { external_id := "1628917"
    data_source := DataSourceEnum.legiscan
    govt_type := GovtTypeEnum.state
    govt_source := "TX"
    bill_number := "HB1"
    title := "General Appropriations Bill"
    description := none
    status := BillStatusEnum.introduced
    bill_introduced_date := some 100
    bill_last_action_date := some 200
    raw_response := "raw" }

/-- The example bill stored with terminal status `enacted`. -/
def enactedRow : LegislationRow :=
  { exampleRow with bill_status := BillStatusEnum.enacted }

/-- A registry holding the enacted example bill. -/
def enactedDB : LegislationDB :=
  { emptyLegislationDB with legislation := [enactedRow], nextId := 8 }

/-- Witness for C4: an ingestion update attempting `introduced` on the
enacted example bill leaves it `enacted` and logs the rejection. -/
theorem claim_C4_terminal_state_guard_witness :
    findBill enactedDB.legislation exampleBill = some enactedRow ∧
      isTerminal enactedRow.bill_status = true ∧
      exampleBill.status ≠ enactedRow.bill_status ∧
      enactedRow.change_hash ≠ some (computeHash exampleBill) ∧
      ((∀ x ∈ (ingestBill exampleTsv enactedDB exampleBill (some examplePayload)
            400).db.legislation, x.id = enactedRow.id → x.bill_status = enactedRow.bill_status) ∧
        (enactedRow.id, enactedRow.bill_status, exampleBill.status) ∈
          (ingestBill exampleTsv enactedDB exampleBill (some examplePayload)
            400).db.statusRejections) :=
  ⟨by decide, by decide, by decide, by decide,
    claim_C4_terminal_state_guard exampleTsv enactedDB exampleBill (some examplePayload) 400
      enactedRow (by decide) (by decide) (by decide) (by decide)⟩

/-! ### Idempotent re-ingestion -/

theorem preservesIdentity_api (now : Nat) :
    preservesIdentity (fun x => { x with last_api_check := now }) :=
  fun _ => ⟨rfl, rfl, rfl, rfl⟩

theorem preservesIdentity_content (r : BillRecord) (now : Nat) (st : BillStatusEnum) :
    preservesIdentity (contentUpdate r now st) :=
  fun _ => ⟨rfl, rfl, rfl, rfl⟩

theorem preservesIdentity_update (tsv : String → List String) (tid : Nat)
    (f : LegislationRow → LegislationRow) (hf : preservesIdentity f) :
    preservesIdentity
      (fun x => if x.id = tid then legislation_search_update_trigger tsv (f x) else x) := by
  intro x
  by_cases h : x.id = tid
  · simp only [if_pos h]
    obtain ⟨h1, h2, h3, h4⟩ := hf x
    exact ⟨h1, h2, h3, h4⟩
  · simp [h]

/-- Re-running the trigger after touching only `last_api_check` is a no-op on
a row whose stored vector is already current. -/
theorem trigger_of_triggered (tsv : String → List String) (x : LegislationRow) (now : Nat)
    (h : triggered tsv x) :
    legislation_search_update_trigger tsv { x with last_api_check := now } =
      { x with last_api_check := now } := by
  unfold triggered vectorOf at h
  unfold legislation_search_update_trigger
  cases x
  simp only at h ⊢
  rw [h]

/-- `.legislation` is unchanged by conditionally logging a status rejection. -/
theorem legislation_of_logIf (c : Prop) (inst : Decidable c) (d : LegislationDB)
    (s : List (Nat × BillStatusEnum × BillStatusEnum)) :
    (@ite _ c inst { d with statusRejections := s } d).legislation = d.legislation := by
  by_cases h : c
  · rw [if_pos h]
  · rw [if_neg h]

/-- After any first ingestion of a record into a well-formed registry, the
record's identity resolves to a single stored row carrying the record's
content hash and a current search vector, the registry stays well-formed,
and exactly one row carries the identity. -/
theorem ingest_first (tsv : String → List String) (db : LegislationDB) (r : BillRecord)
    (pay : Option AnalysisPayload) (now : Nat)
    (hid : idsDistinct db.legislation) (hident : identitiesDistinct db.legislation)
    (hnext : ∀ x ∈ db.legislation, x.id < db.nextId) :
    ∃ row1, findBill (ingestBill tsv db r pay now).db.legislation r = some row1 ∧
      row1.change_hash = some (computeHash r) ∧
      triggered tsv row1 ∧
      idsDistinct (ingestBill tsv db r pay now).db.legislation ∧
      countMatching (ingestBill tsv db r pay now).db.legislation r = 1 := by
  cases hfb : findBill db.legislation r with
  | none =>
    have hm : matchesBill
        (legislation_search_update_trigger tsv (freshLegislationRow db r now)) r = true := by
      simp [matchesBill, freshLegislationRow, legislation_search_update_trigger]
    have hleg : (ingestBill tsv db r pay now).db.legislation =
        legislation_search_update_trigger tsv (freshLegislationRow db r now) ::
          db.legislation := by
      unfold ingestBill
      rw [hfb]
      rw [appendVersions_legislation]
      rfl
    refine ⟨legislation_search_update_trigger tsv (freshLegislationRow db r now),
      ?_, rfl, rfl, ?_, ?_⟩
    · rw [hleg, findBill_cons, if_pos hm]
    · rw [hleg]
      unfold idsDistinct
      rw [List.pairwise_cons]
      refine ⟨?_, hid⟩
      intro b hb
      have := hnext b hb
      show db.nextId ≠ b.id
      omega
    · rw [hleg, countMatching_cons, if_pos hm, countMatching_eq_zero hfb]
  | some row =>
    have hpos := countMatching_pos hfb
    have hle := countMatching_le_one r hident
    by_cases hh : row.change_hash = some (computeHash r)
    · have hhb : (row.change_hash == some (computeHash r)) = true := beq_iff_eq.mpr hh
      have hpres := preservesIdentity_update tsv row.id _ (preservesIdentity_api now)
      have hres : ingestBill tsv db r pay now =
          { db := updateLegislation tsv db row.id (fun x => { x with last_api_check := now })
            legislation_id := row.id
            changed := false } := by
        unfold ingestBill
        rw [hfb]
        show (if (row.change_hash == some (computeHash r)) = true then _ else _) = _
        rw [hhb, if_pos rfl]
      have hleg : (ingestBill tsv db r pay now).db.legislation =
          db.legislation.map (fun x => if x.id = row.id then
            legislation_search_update_trigger tsv { x with last_api_check := now } else x) := by
        rw [hres]
        rfl
      refine ⟨legislation_search_update_trigger tsv { row with last_api_check := now },
        ?_, hh, rfl, ?_, ?_⟩
      · rw [hleg, findBill_map _ _ _ hpres, hfb]
        show some (if row.id = row.id then _ else _) = _
        rw [if_pos rfl]
      · rw [hleg]
        exact idsDistinct_map hid _ hpres
      · rw [hleg, countMatching_map _ _ _ (fun x => matchesBill_of_preserves hpres x r)]
        omega
    · have hhb : (row.change_hash == some (computeHash r)) = false :=
        beq_eq_false_iff_ne.mpr hh
      have hpres := preservesIdentity_update tsv row.id _
        (preservesIdentity_content r now row.bill_status)
      have hres : ingestBill tsv db r pay now =
          { db := appendVersions
              (if (applyStatusUpdate row.bill_status r.status).2 = true then
                { updateLegislation tsv db row.id (contentUpdate r now row.bill_status) with
                  statusRejections :=
                    (row.id, row.bill_status, r.status) ::
                      (updateLegislation tsv db row.id
                        (contentUpdate r now row.bill_status)).statusRejections }
              else updateLegislation tsv db row.id (contentUpdate r now row.bill_status))
              row.id r pay
            legislation_id := row.id
            changed := true } := by
        unfold ingestBill
        rw [hfb]
        show (if (row.change_hash == some (computeHash r)) = true then _ else _) = _
        rw [hhb, if_neg (by simp)]
      have hleg : (ingestBill tsv db r pay now).db.legislation =
          db.legislation.map (fun x => if x.id = row.id then
            legislation_search_update_trigger tsv (contentUpdate r now row.bill_status x)
          else x) := by
        rw [hres, appendVersions_legislation, legislation_of_logIf]
        rfl
      refine ⟨legislation_search_update_trigger tsv
        (contentUpdate r now row.bill_status row), ?_, rfl, rfl, ?_, ?_⟩
      · rw [hleg, findBill_map _ _ _ hpres, hfb]
        show some (if row.id = row.id then _ else _) = _
        rw [if_pos rfl]
      · rw [hleg]
        exact idsDistinct_map hid _ hpres
      · rw [hleg, countMatching_map _ _ _ (fun x => matchesBill_of_preserves hpres x r)]
        omega

/-- Re-ingesting a record whose hash matches the stored row touches only
`last_api_check`: no text or analysis version is created, `changed` is
false, and the legislation table is unchanged up to `last_api_check`. -/
theorem ingest_unchanged (tsv : String → List String) (db1 : LegislationDB) (r : BillRecord)
    (pay : Option AnalysisPayload) (now2 : Nat) (row1 : LegislationRow)
    (hfind : findBill db1.legislation r = some row1)
    (hhash : row1.change_hash = some (computeHash r))
    (hid : idsDistinct db1.legislation)
    (htrig : triggered tsv row1) :
    (ingestBill tsv db1 r pay now2).db.texts = db1.texts ∧
      (ingestBill tsv db1 r pay now2).db.analyses = db1.analyses ∧
      (ingestBill tsv db1 r pay now2).changed = false ∧
      (ingestBill tsv db1 r pay now2).db.legislation.map stripApiCheck =
        db1.legislation.map stripApiCheck ∧
      countMatching (ingestBill tsv db1 r pay now2).db.legislation r =
        countMatching db1.legislation r := by
  have hhb : (row1.change_hash == some (computeHash r)) = true := beq_iff_eq.mpr hhash
  have hpres := preservesIdentity_update tsv row1.id _ (preservesIdentity_api now2)
  have hres : ingestBill tsv db1 r pay now2 =
      { db := updateLegislation tsv db1 row1.id (fun x => { x with last_api_check := now2 })
        legislation_id := row1.id
        changed := false } := by
    unfold ingestBill
    rw [hfind]
    show (if (row1.change_hash == some (computeHash r)) = true then _ else _) = _
    rw [hhb, if_pos rfl]
  rw [hres]
  refine ⟨rfl, rfl, rfl, ?_, ?_⟩
  · show (db1.legislation.map fun x => if x.id = row1.id then
        legislation_search_update_trigger tsv { x with last_api_check := now2 } else x).map
          stripApiCheck = _
    rw [List.map_map]
    apply List.map_congr_left
    intro x hx
    show stripApiCheck (if x.id = row1.id then
      legislation_search_update_trigger tsv { x with last_api_check := now2 } else x) =
        stripApiCheck x
    by_cases h : x.id = row1.id
    · rw [if_pos h]
      have hx1 : x = row1 := mem_id_eq hid hx (findBill_mem hfind).1 h
      subst hx1
      rw [trigger_of_triggered tsv x now2 htrig]
      rfl
    · rw [if_neg h]
  · show countMatching (db1.legislation.map fun x => if x.id = row1.id then
        legislation_search_update_trigger tsv { x with last_api_check := now2 } else x) r = _
    exact countMatching_map _ _ _ (fun x => matchesBill_of_preserves hpres x r)

/-- C3: ingesting the same bill record twice with an unchanged content hash
leaves exactly one legislation row carrying the record's unique identity,
creates zero new Text/Analysis versions on the second call, and the second
call updates only `last_api_check` (reporting `changed = false`). -/
theorem claim_C3_idempotent_reingestion (tsv : String → List String) (db : LegislationDB)
    (r : BillRecord) (pay : Option AnalysisPayload) (now1 now2 : Nat)
    (hid : idsDistinct db.legislation) (hident : identitiesDistinct db.legislation)
    (hnext : ∀ x ∈ db.legislation, x.id < db.nextId) :
    countMatching
        (ingestBill tsv (ingestBill tsv db r pay now1).db r pay now2).db.legislation r = 1 ∧
      (ingestBill tsv (ingestBill tsv db r pay now1).db r pay now2).db.texts =
        (ingestBill tsv db r pay now1).db.texts ∧
      (ingestBill tsv (ingestBill tsv db r pay now1).db r pay now2).db.analyses =
        (ingestBill tsv db r pay now1).db.analyses ∧
      (ingestBill tsv (ingestBill tsv db r pay now1).db r pay now2).changed = false ∧
      (ingestBill tsv (ingestBill tsv db r pay now1).db r pay now2).db.legislation.map
          stripApiCheck =
        (ingestBill tsv db r pay now1).db.legislation.map stripApiCheck := by
  obtain ⟨row1, hfind, hhash, htrig, hid1, hcount1⟩ :=
    ingest_first tsv db r pay now1 hid hident hnext
  obtain ⟨ht, ha, hc, hs, hcm⟩ :=
    ingest_unchanged tsv (ingestBill tsv db r pay now1).db r pay now2 row1 hfind hhash hid1
      htrig
  exact ⟨by rw [hcm, hcount1], ht, ha, hc, hs⟩

/-- Witness for C3: the example bill ingested twice into an empty registry. -/
theorem claim_C3_idempotent_reingestion_witness :
    idsDistinct emptyLegislationDB.legislation ∧
      identitiesDistinct emptyLegislationDB.legislation ∧
      (∀ x ∈ emptyLegislationDB.legislation, x.id < emptyLegislationDB.nextId) ∧
      (countMatching
          (ingestBill exampleTsv
            (ingestBill exampleTsv emptyLegislationDB exampleBill (some examplePayload) 10).db
            exampleBill (some examplePayload) 20).db.legislation exampleBill = 1 ∧
        (ingestBill exampleTsv
            (ingestBill exampleTsv emptyLegislationDB exampleBill (some examplePayload) 10).db
            exampleBill (some examplePayload) 20).db.texts =
          (ingestBill exampleTsv emptyLegislationDB exampleBill
            (some examplePayload) 10).db.texts ∧
        (ingestBill exampleTsv
            (ingestBill exampleTsv emptyLegislationDB exampleBill (some examplePayload) 10).db
            exampleBill (some examplePayload) 20).db.analyses =
          (ingestBill exampleTsv emptyLegislationDB exampleBill
            (some examplePayload) 10).db.analyses ∧
        (ingestBill exampleTsv
            (ingestBill exampleTsv emptyLegislationDB exampleBill (some examplePayload) 10).db
            exampleBill (some examplePayload) 20).changed = false ∧
        (ingestBill exampleTsv
            (ingestBill exampleTsv emptyLegislationDB exampleBill (some examplePayload) 10).db
            exampleBill (some examplePayload) 20).db.legislation.map stripApiCheck =
          (ingestBill exampleTsv emptyLegislationDB exampleBill
            (some examplePayload) 10).db.legislation.map stripApiCheck) :=
  ⟨by decide, by decide, by simp [emptyLegislationDB],
    claim_C3_idempotent_reingestion exampleTsv emptyLegislationDB exampleBill
      (some examplePayload) 10 20 (by decide) (by decide) (by simp [emptyLegislationDB])⟩

end PolicyPulse
